import Mathlib

/-!
Verification development for the `epg-bangladesh` EPG generator script
(`src/main.py`).  The script is a linear fetch-transform-serialize
pipeline: it fetches channel metadata and three per-day schedule bundles,
deduplicates channels, validates and timezone-converts program time
ranges, and assembles an XML document.

The embedding below models the script's pure data flow.  HTTP fetches are
represented by their outcomes (`MetaFetch`, `DayResult`); JSON values that
the script feeds to `int()` are represented by their parse outcome
(`TsRaw`).  Uncaught exceptions (the `ValueError` raised by the sort key
`int(x.get("s", 0))` on a non-numeric start, which is not a
`requests.exceptions.RequestException` and therefore escapes to the
top-level handler, aborting the run before the output file is written)
are modelled by `Option`: `none` means the run aborts with no output.

Timestamp domain: `datetime.fromtimestamp(t, pytz.utc)` and `astimezone`
accept timestamps whose UTC and Dhaka-local calendar years lie in
1..9999; outside that range CPython raises ValueError / OverflowError /
OSError depending on the magnitude.  The model's formatter is faithful
for 0 <= t < 253402279200 (Dhaka-local year <= 9999); theorems about the
formatter carry that bound as a hypothesis.  The Asia/Dhaka zone data is
taken from tzdata: offset +06:00 for all t >= 0 except the 2009
daylight-saving window [1245430800, 1262278800) where it is +07:00.
-/

namespace Epg

/-- Outcome of applying Python `int()` to a JSON value found in a
program's `"s"` or `"e"` field: `num n` is a number (or numeric string)
parsing to `n`; `badstr` is a non-numeric string, on which `int()` raises
`ValueError`.  A missing key is `num 0` (the script uses
`program.get("s", 0)` / `program.get("e", 0)`). -/
inductive TsRaw where
  | num (n : Int)
  | badstr
deriving DecidableEq, Repr

/-- Python `int()` on a raw timestamp value: `none` means `ValueError`. -/
def pyInt : TsRaw → Option Int
  | .num n => some n
  | .badstr => none

/-- Model of `validate_program_times` (src/main.py lines 19-26): `int(start)` is
evaluated first, then `int(end)`; a `ValueError` from either is caught
and yields `False`; otherwise the result is `start > 0 and end > start`. -/
def validate_program_times (start stop : TsRaw) : Bool :=
  match pyInt start with
  | none => false
  | some s =>
    match pyInt stop with
    | none => false
    | some e => decide (0 < s) && decide (s < e)

/-- Proleptic-Gregorian leap year, as used by Python `datetime`. -/
def isLeapYear (y : Int) : Bool :=
  y % 4 = 0 && (y % 100 != 0 || y % 400 = 0)

/-- Civil date (year, month, day) of a day count relative to 1970-01-01,
by the standard era-decomposition algorithm; this is the calendar
arithmetic underlying `datetime.fromtimestamp`.  Divisions below act on
nonnegative numerators, where Lean's `Int` division agrees with floor
division. -/
def civilFromDays (z : Int) : Int × Int × Int :=
  let z' := z + 719468
  let era : Int := Int.fdiv z' 146097
  let doe : Int := z' - era * 146097
  let yoe : Int := (doe - doe / 1460 + doe / 36524 - doe / 146096) / 365
  let y : Int := yoe + era * 400
  let doy : Int := doe - (365 * yoe + yoe / 4 - yoe / 100)
  let mp : Int := (5 * doy + 2) / 153
  let d : Int := doy - (153 * mp + 2) / 5 + 1
  let m : Int := mp + (if mp < 10 then 3 else -9)
  (y + (if m ≤ 2 then 1 else 0), m, d)

/-- Zero-pad a numeral to two digits, as `strftime` does for `%d`, `%m`,
`%H`, `%M`, `%S`. -/
def pad2 (n : Int) : String :=
  (if n < 10 then "0" else "") ++ toString n

/-- Zero-pad a year to four digits (`strftime` `%Y`); run dates and all
timestamps in the modelled domain have four-digit years. -/
def pad4 (n : Int) : String :=
  (if n < 10 then "000" else if n < 100 then "00" else if n < 1000 then "0" else "") ++
    toString n

/-- Rendering `strftime('%Y%m%d%H%M%S')` of the civil datetime that lies `loc`
seconds after 1970-01-01 00:00:00 (the local-clock reading after the
timezone shift has been added). -/
def fmtCivil (loc : Int) : String :=
  let z := Int.fdiv loc 86400
  let sod := Int.emod loc 86400
  let ymd := civilFromDays z
  pad4 ymd.1 ++ pad2 ymd.2.1 ++ pad2 ymd.2.2 ++
    pad2 (sod / 3600) ++ pad2 (sod / 60 % 60) ++ pad2 (sod % 60)

/-- UTC offset, in seconds, of `pytz.timezone('Asia/Dhaka')` at Unix time
`t`, from tzdata: +06:00, except +07:00 during the 2009 daylight-saving
window (2009-06-19 17:00 UTC to 2009-12-31 17:00 UTC).  Modelled for
`t >= 0`; the zone's pre-1952 historical offsets are not represented
(every claim concerns positive timestamps). -/
def dhakaOffset (t : Int) : Int :=
  if 1245430800 ≤ t ∧ t < 1262278800 then 25200 else 21600

/-- Model of `format_timestamp` (src/main.py lines 8-16): `int(timestamp)`, then
`datetime.fromtimestamp(_, pytz.utc).astimezone(Asia/Dhaka)`, then
`strftime('%Y%m%d%H%M%S')` with the hardcoded literal suffix `' +0600'`.
A `ValueError` from `int()` is caught and yields `''`.  Faithful for
parsed values in `[0, 253402279200)`; see the file comment. -/
def format_timestamp (timestamp : TsRaw) : String :=
  match pyInt timestamp with
  | none => ""
  | some t => fmtCivil (t + dhakaOffset t) ++ " +0600"

/-- Modelled from the spec (section 4.4 / section 8): the formatter the
spec describes, whose output "equals UTC time + 6 hours, formatted
`YYYYMMDDhhmmss +0600`", for comparison with `format_timestamp`. -/
def specFormatUTC6 (t : Int) : String :=
  fmtCivil (t + 21600) ++ " +0600"

/-- A calendar date, as carried by Python `datetime.now()` for the
purposes of `get_api_urls` (only the date fields feed the URL). -/
structure Date where
  year : Int
  month : Int
  day : Int
deriving DecidableEq, Repr

/-- Number of days in a month of the proleptic Gregorian calendar. -/
def monthLength (y m : Int) : Int :=
  if m = 2 then (if isLeapYear y then 29 else 28)
  else if m = 4 ∨ m = 6 ∨ m = 9 ∨ m = 11 then 30 else 31

/-- Model of `date + timedelta(days=1)`: the next calendar day. -/
def nextDay (d : Date) : Date :=
  if d.day < monthLength d.year d.month then ⟨d.year, d.month, d.day + 1⟩
  else if d.month < 12 then ⟨d.year, d.month + 1, 1⟩
  else ⟨d.year + 1, 1, 1⟩

/-- Model of `date + timedelta(days=n)`. -/
def addDays (d : Date) : Nat → Date
  | 0 => d
  | n + 1 => nextDay (addDays d n)

/-- The `strftime` directives used by `get_api_urls` (`%d-%m-%Y`),
interpreted over the format string. -/
def strftimeRun (dt : Date) : List Char → String
  | '%' :: 'd' :: rest => pad2 dt.day ++ strftimeRun dt rest
  | '%' :: 'm' :: rest => pad2 dt.month ++ strftimeRun dt rest
  | '%' :: 'Y' :: rest => pad4 dt.year ++ strftimeRun dt rest
  | c :: rest => String.singleton c ++ strftimeRun dt rest
  | [] => ""

/-- The fixed URL template (src/main.py line 31), split at its `{}`
placeholder. -/
def baseUrlHead : String :=
  "https://cloudtv.akamaized.net/AynaOTT/BDcontent/channels/epg/652fcf82a2649538da6fc6e3_"

/-- Tail of the fixed URL template after the `{}` placeholder. -/
def baseUrlTail : String := "_minified_bundle.json"

/-- Model of `get_api_urls` (src/main.py lines 29-39): for `i` in `range(3)`,
format `now + timedelta(days=i)` with `strftime("%d-%m-%Y")` and
substitute it into the template. -/
def get_api_urls (today : Date) : List String :=
  (List.range 3).map fun i =>
    baseUrlHead ++ strftimeRun (addDays today i) "%d-%m-%Y".toList ++ baseUrlTail

/-- Modelled from the spec (section 4.2): a day's date "formatted as
zero-padded `day-month-year`". -/
def specDateDMY (d : Date) : String :=
  pad2 d.day ++ "-" ++ pad2 d.month ++ "-" ++ pad4 d.year

/-- Modelled from the spec (section 4.2): the URL for one day, the spec
date substituted into the fixed template. -/
def specUrl (d : Date) : String :=
  baseUrlHead ++ specDateDMY d ++ baseUrlTail

/-- One record of the metadata API's `"channels"` list.  Each field is
`none` when the key is absent (subscripting then raises `KeyError`). -/
structure MetaChannel where
  id : Option String
  name : Option String
  categoryName : Option String
  logo : Option String
deriving DecidableEq, Repr

/-- Outcome of the metadata HTTP fetch: `metaFail` covers a network
error, a non-2xx status (`raise_for_status`) or malformed JSON;
`metaOk chans` carries `data.get("channels", [])` (a missing `"channels"`
key is the empty list). -/
inductive MetaFetch where
  | metaFail
  | metaOk (channels : List MetaChannel)
deriving DecidableEq, Repr

/-- The value stored per channel id in `channels_dict`. -/
structure ChannelRec where
  name : String
  category : String
  logo : String
deriving DecidableEq, Repr

/-- Type of `channels_dict`: a Python dict keyed by channel id. -/
def ChannelIndex : Type := String → Option ChannelRec

/-- The dict-building loop of `get_channel_info` (src/main.py lines
50-57): each record's `id`, `name`, `categoryName`, `logo` are read by
subscripting; a missing key raises `KeyError` (`none` here), which
escapes the loop; assignment overwrites an earlier record with the same
id. -/
def buildChannelsDict : List MetaChannel → ChannelIndex → Option ChannelIndex
  | [], acc => some acc
  | c :: rest, acc =>
    match c.id, c.name, c.categoryName, c.logo with
    | some i, some nm, some cat, some lg =>
      buildChannelsDict rest (fun x => if x = i then some ⟨nm, cat, lg⟩ else acc x)
    | _, _, _, _ => none

/-- Model of `get_channel_info` (src/main.py lines 42-60): on any failure — the
fetch itself or a `KeyError` while building the dict — the blanket
`except Exception` returns the empty dict `{}`. -/
def get_channel_info (m : MetaFetch) : ChannelIndex :=
  match m with
  | .metaFail => fun _ => none
  | .metaOk chans =>
    match buildChannelsDict chans (fun _ => none) with
    | some idx => idx
    | none => fun _ => none

/-- A compact program record of a schedule bundle (keys `s`, `e`, `n`,
`d`); `s`/`e` are the `int()`-outcomes of `program.get("s", 0)` /
`program.get("e", 0)` (a missing key is `num 0`), `n`/`d` are `none`
when absent. -/
structure Program where
  s : TsRaw
  e : TsRaw
  n : Option String
  d : Option String
deriving DecidableEq, Repr

/-- A channel entry of a schedule bundle: `i` and `n` are `none` when
the key is absent (`channel.get` supplies defaults), `epg` is
`channel.get("epg", [])`. -/
structure ChannelEntry where
  i : Option String
  n : Option String
  epg : List Program
deriving DecidableEq, Repr

/-- Outcome of one day's schedule fetch: `fetchFail` covers a request
exception or non-2xx status (caught by `except RequestException`, the
day is skipped); `fetchOk` carries the parsed JSON array. -/
inductive DayResult where
  | fetchFail
  | fetchOk (bundle : List ChannelEntry)
deriving DecidableEq, Repr

/-- Model of `channel.get("i", "unknown_id")` (src/main.py line 83). -/
def chanIdOf (c : ChannelEntry) : String := c.i.getD "unknown_id"

/-- Model of `channel.get("n", "unknown_name")` (src/main.py line 84). -/
def chanNameOf (c : ChannelEntry) : String := c.n.getD "unknown_name"

/-- A child node of the output document's `tv` root.  `channel` carries
the `id` attribute, the `display-name` text and the optional `category`
text and `icon` `src` attribute; `programme` carries the `start`, `stop`
and `channel` attributes and the `title` and `desc` texts.  The `sVal`
and `eVal` fields record the parsed integer start/end of the program a
`programme` node was emitted from (the values whose formatted images are
the `start`/`stop` attributes); they are carried so order properties can
be stated about the document. -/
inductive Node where
  | channel (id : String) (displayName : String) (category : Option String)
      (icon : Option String)
  | programme (start stop chan : String) (sVal eVal : Int) (title desc : String)
deriving DecidableEq, Repr

/-- Channel-node construction (src/main.py lines 88-101): enriched from
`channel_info` when the id is present there, otherwise the fallback
schedule-supplied name with no category or icon child. -/
def mkChannelNode (idx : ChannelIndex) (cid cname : String) : Node :=
  match idx cid with
  | some r => .channel cid r.name (some r.category) (some r.logo)
  | none => .channel cid cname none none

/-- The sort key `int(x.get("s", 0))` (src/main.py line 107), meaningful
only when the value parses. -/
def sortKey (p : Program) : Int := (pyInt p.s).getD 0

/-- Model of `programs.sort(key=lambda x: int(x.get("s", 0)))` (line 107).
Python's sort first computes every element's key, so a non-numeric `"s"`
anywhere in the list raises `ValueError` (`none`): that exception is not
a `RequestException` and aborts the run.  Otherwise the list is sorted
stably by key (insertion sort is stable, like Python's sort). -/
def sortPrograms (l : List Program) : Option (List Program) :=
  if l.all fun p => (pyInt p.s).isSome then
    some (List.insertionSort (fun a b => sortKey a ≤ sortKey b) l)
  else none

/-- The per-program emission step (src/main.py lines 110-135): validate,
format both timestamps, and emit a `programme` node when both formatted
strings are non-empty (Python truthiness of `start_time and end_time`);
otherwise the program is skipped. -/
def emitOne (cid : String) (p : Program) : Option Node :=
  if validate_program_times p.s p.e then
    let startTime := format_timestamp p.s
    let stopTime := format_timestamp p.e
    if startTime ≠ "" ∧ stopTime ≠ "" then
      some (.programme startTime stopTime cid ((pyInt p.s).getD 0) ((pyInt p.e).getD 0)
        (p.n.getD "Unknown Program") (p.d.getD "No description available"))
    else none
  else none

/-- The mutable state of the assembly loop: the children appended so far
to the `tv` root, and the `processed_channels` dedup set (a list used
only through membership). -/
structure AsmState where
  tv : List Node
  processed : List String
deriving DecidableEq, Repr

/-- Processing of one channel entry (src/main.py lines 82-135): append
the channel node if the id is new and mark it processed, then sort the
entry's programs (which can raise, aborting the run) and append the
emitted programme nodes. -/
def processEntry (idx : ChannelIndex) (st : AsmState) (c : ChannelEntry) :
    Option AsmState :=
  let cid := chanIdOf c
  let st1 : AsmState :=
    if cid ∈ st.processed then st
    else ⟨st.tv ++ [mkChannelNode idx cid (chanNameOf c)], cid :: st.processed⟩
  match sortPrograms c.epg with
  | none => none
  | some sorted => some ⟨st1.tv ++ sorted.filterMap (emitOne cid), st1.processed⟩

/-- Model of `for channel in data: ...` over one day's bundle. -/
def processBundle (idx : ChannelIndex) : AsmState → List ChannelEntry → Option AsmState
  | st, [] => some st
  | st, c :: rest =>
    match processEntry idx st c with
    | none => none
    | some st' => processBundle idx st' rest

/-- One iteration of `for api_url in get_api_urls()`: a failed fetch is
caught by `except RequestException` and skipped (`continue`); a
successful fetch is processed, and an uncaught exception from inside
propagates. -/
def processDay (idx : ChannelIndex) (st : AsmState) : DayResult → Option AsmState
  | .fetchFail => some st
  | .fetchOk b => processBundle idx st b

/-- The whole per-day loop (src/main.py lines 76-139). -/
def processDays (idx : ChannelIndex) : AsmState → List DayResult → Option AsmState
  | st, [] => some st
  | st, d :: rest =>
    match processDay idx st d with
    | none => none
    | some st' => processDays idx st' rest

/-- The output document: the `tv` root's generator attributes and its
children in order. -/
structure EpgDocument where
  generatorName : String
  generatorUrl : String
  children : List Node
deriving DecidableEq, Repr

/-- The main script (src/main.py lines 63-150): build the metadata
index, run the per-day loop from the empty document and empty dedup set,
and write the document.  `none` means an uncaught exception aborted the
run before `epg.xml` was written. -/
def run (m : MetaFetch) (days : List DayResult) : Option EpgDocument :=
  match processDays (get_channel_info m) ⟨[], []⟩ days with
  | some st => some ⟨"Bangladesh EPG Generator", "", st.tv⟩
  | none => none

/-- Does a node render as `<channel id=cid>`? -/
def isChannelWithId (cid : String) : Node → Bool
  | .channel i _ _ _ => i = cid
  | .programme _ _ _ _ _ _ _ => false

/-- Number of channel nodes with the given id among the children. -/
def channelCount (l : List Node) (cid : String) : Nat :=
  (l.filter (isChannelWithId cid)).length

/-- The channel ids (after the `"unknown_id"` default) of all entries of
all successfully fetched bundles, in processing order. -/
def bundleIds : List DayResult → List String
  | [] => []
  | .fetchFail :: rest => bundleIds rest
  | .fetchOk b :: rest => b.map chanIdOf ++ bundleIds rest

/-- Is a node a programme node? -/
def isProgrammeNode : Node → Bool
  | .channel _ _ _ _ => false
  | .programme _ _ _ _ _ _ _ => true

/-- The programme children, in document order. -/
def progNodes (l : List Node) : List Node := l.filter isProgrammeNode

/-- The `channel` attribute of a programme node. -/
def progChanOf : Node → Option String
  | .programme _ _ c _ _ _ _ => some c
  | .channel _ _ _ _ => none

/-- The parsed start timestamp a programme node was emitted from. -/
def progStartVal : Node → Option Int
  | .programme _ _ _ s _ _ _ => some s
  | .channel _ _ _ _ => none

/-- The programme nodes one channel entry contributes (empty when the
entry aborts the run). -/
def entryProgs (c : ChannelEntry) : List Node :=
  match sortPrograms c.epg with
  | some sorted => sorted.filterMap (emitOne (chanIdOf c))
  | none => []

/-- The programme nodes contributed by all successfully fetched days. -/
def daysProgs : List DayResult → List Node
  | [] => []
  | .fetchFail :: rest => daysProgs rest
  | .fetchOk b :: rest => (b.map entryProgs).flatten ++ daysProgs rest

/-- The parsed start timestamps of the programme nodes that reference
channel `cid`, in document order. -/
def progStartsFor (l : List Node) (cid : String) : List Int :=
  l.filterMap fun n =>
    match n with
    | .programme _ _ c s _ _ _ => if c = cid then some s else none
    | .channel _ _ _ _ => none

/-- Is a list of timestamps in non-decreasing order? -/
def nondecreasing : List Int → Bool
  | [] => true
  | [_] => true
  | a :: b :: rest => a ≤ b && nondecreasing (b :: rest)

/-- Does a channel node carry neither a category nor an icon child?
(Programme nodes satisfy this vacuously.) -/
def fallbackOnly : Node → Bool
  | .channel _ _ none none => true
  | .channel _ _ _ _ => false
  | .programme _ _ _ _ _ _ _ => true

/-- Every program of every entry of the bundle has an integer-parsable
start, so processing the bundle cannot raise in the sort key. -/
def bundleClean (b : List ChannelEntry) : Bool :=
  b.all fun c => c.epg.all fun p => (pyInt p.s).isSome

/-- No successfully fetched day's bundle can raise in the sort key. -/
def daysClean : List DayResult → Bool
  | [] => true
  | .fetchFail :: rest => daysClean rest
  | .fetchOk b :: rest => bundleClean b && daysClean rest

/-- The timestamp domain on which the formatter model is faithful to
CPython: parsed values below 253402279200 (Dhaka-local year at most
9999).  Non-numeric strings are always handled faithfully (caught
`ValueError`). -/
def tsSafe : TsRaw → Bool
  | .num t => t < 253402279200
  | .badstr => true

theorem get_channel_info_metaFail : get_channel_info .metaFail = fun _ => none := rfl

theorem mkChannelNode_empty (cid nm : String) :
    mkChannelNode (fun _ => none) cid nm = .channel cid nm none none := rfl

theorem emitOne_shape {cid : String} {p : Program} {n : Node}
    (h : emitOne cid p = some n) :
    isProgrammeNode n = true ∧ progChanOf n = some cid ∧
      progStartVal n = some (sortKey p) := by
  unfold emitOne at h
  dsimp only at h
  split at h
  · split at h
    · cases h
      exact ⟨rfl, rfl, rfl⟩
    · cases h
  · cases h

theorem sortPrograms_isSome (l : List Program) :
    (sortPrograms l).isSome = l.all fun p => (pyInt p.s).isSome := by
  unfold sortPrograms
  split <;> simp_all

theorem processEntry_isSome (idx : ChannelIndex) (st : AsmState) (c : ChannelEntry) :
    (processEntry idx st c).isSome = c.epg.all fun p => (pyInt p.s).isSome := by
  rw [← sortPrograms_isSome]
  unfold processEntry
  cases sortPrograms c.epg <;> simp

theorem processBundle_isSome (idx : ChannelIndex) (b : List ChannelEntry) :
    ∀ st, (processBundle idx st b).isSome = bundleClean b := by
  induction b with
  | nil => intro st; simp [processBundle, bundleClean]
  | cons c rest ih =>
    intro st
    have hc := processEntry_isSome idx st c
    unfold processBundle
    cases h : processEntry idx st c with
    | none =>
      rw [h] at hc
      simp only [bundleClean, List.all_cons, ← hc]
      simp
    | some st' =>
      rw [h] at hc
      simp only [bundleClean, List.all_cons, ← hc, ih st']
      simp [bundleClean]

theorem processDays_isSome (idx : ChannelIndex) (days : List DayResult) :
    ∀ st, (processDays idx st days).isSome = daysClean days := by
  induction days with
  | nil => intro st; simp [processDays, daysClean]
  | cons d rest ih =>
    intro st
    cases d with
    | fetchFail => simpa [processDays, processDay, daysClean] using ih st
    | fetchOk b =>
      have hb := processBundle_isSome idx b st
      unfold processDays processDay
      dsimp only
      cases h : processBundle idx st b with
      | none =>
        rw [h] at hb
        simp [daysClean, ← hb]
      | some st' =>
        rw [h] at hb
        simp [daysClean, ← hb, ih st']

theorem run_isSome (m : MetaFetch) (days : List DayResult) :
    (run m days).isSome = daysClean days := by
  unfold run
  rw [← processDays_isSome (get_channel_info m) days ⟨[], []⟩]
  cases processDays (get_channel_info m) ⟨[], []⟩ days <;> simp

theorem channelCount_append (l₁ l₂ : List Node) (cid : String) :
    channelCount (l₁ ++ l₂) cid = channelCount l₁ cid + channelCount l₂ cid := by
  simp [channelCount, List.filter_append]

theorem channelCount_emitted (c cid : String) (l : List Program) :
    channelCount (l.filterMap (emitOne c)) cid = 0 := by
  simp only [channelCount, List.length_eq_zero, List.filter_eq_nil_iff]
  intro n hn
  obtain ⟨p, _, he⟩ := List.mem_filterMap.1 hn
  have hs := (emitOne_shape he).1
  cases n with
  | channel _ _ _ _ => simp [isProgrammeNode] at hs
  | programme _ _ _ _ _ _ _ => simp [isChannelWithId]

theorem channelCount_mk (idx : ChannelIndex) (cid0 nm cid : String) :
    channelCount [mkChannelNode idx cid0 nm] cid = if cid0 = cid then 1 else 0 := by
  unfold mkChannelNode
  cases idx cid0 <;> simp [channelCount, isChannelWithId, List.filter] <;> split <;>
    simp_all

theorem processEntry_chanInv {idx : ChannelIndex} {st : AsmState} {c : ChannelEntry}
    {st' : AsmState} (h : processEntry idx st c = some st')
    (hinv : ∀ cid, channelCount st.tv cid = if cid ∈ st.processed then 1 else 0) :
    (∀ cid, channelCount st'.tv cid = if cid ∈ st'.processed then 1 else 0) ∧
      ∀ cid, cid ∈ st'.processed ↔ cid = chanIdOf c ∨ cid ∈ st.processed := by
  unfold processEntry at h
  dsimp only at h
  cases hs : sortPrograms c.epg with
  | none => rw [hs] at h; cases h
  | some sorted =>
    rw [hs] at h
    by_cases hm : chanIdOf c ∈ st.processed
    · simp only [if_pos hm] at h
      injection h with h'
      subst h'
      refine ⟨fun cid => ?_, fun cid => ⟨fun hmem => Or.inr hmem,
        fun hor => hor.elim (fun he => he ▸ hm) id⟩⟩
      rw [channelCount_append, channelCount_emitted, Nat.add_zero]
      exact hinv cid
    · simp only [if_neg hm] at h
      injection h with h'
      subst h'
      constructor
      · intro cid
        rw [channelCount_append, channelCount_emitted, Nat.add_zero,
          channelCount_append, hinv cid, channelCount_mk]
        by_cases hc : cid = chanIdOf c
        · subst hc
          simp [hm]
        · simp [List.mem_cons, hc, Ne.symm hc]
      · intro cid
        simp [List.mem_cons]

theorem processBundle_chanInv {idx : ChannelIndex} {b : List ChannelEntry} :
    ∀ {st st' : AsmState}, processBundle idx st b = some st' →
    (∀ cid, channelCount st.tv cid = if cid ∈ st.processed then 1 else 0) →
    (∀ cid, channelCount st'.tv cid = if cid ∈ st'.processed then 1 else 0) ∧
      ∀ cid, cid ∈ st'.processed ↔ cid ∈ b.map chanIdOf ∨ cid ∈ st.processed := by
  induction b with
  | nil =>
    intro st st' h hinv
    injection h with h'
    subst h'
    exact ⟨hinv, fun cid => by simp⟩
  | cons c rest ih =>
    intro st st' h hinv
    unfold processBundle at h
    cases he : processEntry idx st c with
    | none => rw [he] at h; cases h
    | some st1 =>
      rw [he] at h
      obtain ⟨hinv1, hmem1⟩ := processEntry_chanInv he hinv
      obtain ⟨hinv2, hmem2⟩ := ih h hinv1
      refine ⟨hinv2, fun cid => ?_⟩
      rw [hmem2 cid]
      simp only [List.map_cons, List.mem_cons, hmem1 cid]
      tauto

theorem processDays_chanInv {idx : ChannelIndex} {days : List DayResult} :
    ∀ {st st' : AsmState}, processDays idx st days = some st' →
    (∀ cid, channelCount st.tv cid = if cid ∈ st.processed then 1 else 0) →
    (∀ cid, channelCount st'.tv cid = if cid ∈ st'.processed then 1 else 0) ∧
      ∀ cid, cid ∈ st'.processed ↔ cid ∈ bundleIds days ∨ cid ∈ st.processed := by
  induction days with
  | nil =>
    intro st st' h hinv
    injection h with h'
    subst h'
    exact ⟨hinv, fun cid => by simp [bundleIds]⟩
  | cons d rest ih =>
    intro st st' h hinv
    unfold processDays processDay at h
    cases d with
    | fetchFail =>
      dsimp only at h
      obtain ⟨hinv2, hmem2⟩ := ih h hinv
      exact ⟨hinv2, fun cid => by rw [hmem2 cid]; simp [bundleIds]⟩
    | fetchOk b =>
      dsimp only at h
      cases hb : processBundle idx st b with
      | none => rw [hb] at h; cases h
      | some st1 =>
        rw [hb] at h
        obtain ⟨hinv1, hmem1⟩ := processBundle_chanInv hb hinv
        obtain ⟨hinv2, hmem2⟩ := ih h hinv1
        refine ⟨hinv2, fun cid => ?_⟩
        rw [hmem2 cid]
        simp only [bundleIds, List.mem_append, hmem1 cid]
        tauto

theorem progNodes_append (l₁ l₂ : List Node) :
    progNodes (l₁ ++ l₂) = progNodes l₁ ++ progNodes l₂ := by
  simp [progNodes, List.filter_append]

theorem progNodes_emitted (c : String) (l : List Program) :
    progNodes (l.filterMap (emitOne c)) = l.filterMap (emitOne c) := by
  rw [progNodes, List.filter_eq_self]
  intro n hn
  obtain ⟨p, _, he⟩ := List.mem_filterMap.1 hn
  exact (emitOne_shape he).1

theorem progNodes_mk (idx : ChannelIndex) (cid nm : String) :
    progNodes [mkChannelNode idx cid nm] = [] := by
  unfold mkChannelNode
  cases idx cid <;> simp [progNodes, isProgrammeNode, List.filter]

theorem processEntry_progs {idx : ChannelIndex} {st : AsmState} {c : ChannelEntry}
    {st' : AsmState} (h : processEntry idx st c = some st') :
    progNodes st'.tv = progNodes st.tv ++ entryProgs c := by
  unfold processEntry at h
  dsimp only at h
  cases hs : sortPrograms c.epg with
  | none => rw [hs] at h; cases h
  | some sorted =>
    rw [hs] at h
    injection h with h'
    subst h'
    unfold entryProgs
    rw [hs]
    by_cases hm : chanIdOf c ∈ st.processed
    · simp only [if_pos hm]
      rw [progNodes_append, progNodes_emitted]
    · simp only [if_neg hm]
      rw [progNodes_append, progNodes_emitted, progNodes_append, progNodes_mk,
        List.append_nil]

theorem processBundle_progs {idx : ChannelIndex} {b : List ChannelEntry} :
    ∀ {st st' : AsmState}, processBundle idx st b = some st' →
    progNodes st'.tv = progNodes st.tv ++ (b.map entryProgs).flatten := by
  induction b with
  | nil =>
    intro st st' h
    injection h with h'
    subst h'
    simp
  | cons c rest ih =>
    intro st st' h
    unfold processBundle at h
    cases he : processEntry idx st c with
    | none => rw [he] at h; cases h
    | some st1 =>
      rw [he] at h
      rw [ih h, processEntry_progs he]
      simp [List.append_assoc]

theorem processDays_progs {idx : ChannelIndex} {days : List DayResult} :
    ∀ {st st' : AsmState}, processDays idx st days = some st' →
    progNodes st'.tv = progNodes st.tv ++ daysProgs days := by
  induction days with
  | nil =>
    intro st st' h
    injection h with h'
    subst h'
    simp [daysProgs]
  | cons d rest ih =>
    intro st st' h
    unfold processDays processDay at h
    cases d with
    | fetchFail =>
      dsimp only at h
      rw [ih h]
      simp [daysProgs]
    | fetchOk b =>
      dsimp only at h
      cases hb : processBundle idx st b with
      | none => rw [hb] at h; cases h
      | some st1 =>
        rw [hb] at h
        rw [ih h, processBundle_progs hb]
        simp [daysProgs, List.append_assoc]

theorem run_progs {m : MetaFetch} {days : List DayResult} {doc : EpgDocument}
    (h : run m days = some doc) : progNodes doc.children = daysProgs days := by
  unfold run at h
  cases hp : processDays (get_channel_info m) ⟨[], []⟩ days with
  | none => rw [hp] at h; cases h
  | some st =>
    rw [hp] at h
    injection h with h'
    subst h'
    have := processDays_progs hp
    simpa [progNodes, List.filter] using this

theorem run_none_of_unclean (m : MetaFetch) (days : List DayResult)
    (h : daysClean days = false) : run m days = none := by
  have hs := run_isSome m days
  rw [h] at hs
  cases hr : run m days with
  | none => rfl
  | some doc => rw [hr] at hs; simp at hs

theorem processDays_fetchFail (idx : ChannelIndex) (pre post : List DayResult) :
    ∀ st, processDays idx st (pre ++ DayResult.fetchFail :: post) =
      processDays idx st (pre ++ post) := by
  induction pre with
  | nil =>
    intro st
    rfl
  | cons d rest ih =>
    intro st
    simp only [List.cons_append]
    unfold processDays
    cases processDay idx st d <;> simp [ih]

theorem emitOne_fallback {cid : String} {p : Program} {n : Node}
    (h : emitOne cid p = some n) : fallbackOnly n = true := by
  have hs := (emitOne_shape h).1
  cases n with
  | channel _ _ _ _ => simp [isProgrammeNode] at hs
  | programme _ _ _ _ _ _ _ => rfl

theorem processEntry_fallback {st : AsmState} {c : ChannelEntry} {st' : AsmState}
    (h : processEntry (fun _ => none) st c = some st')
    (hf : ∀ n ∈ st.tv, fallbackOnly n = true) :
    ∀ n ∈ st'.tv, fallbackOnly n = true := by
  unfold processEntry at h
  dsimp only at h
  cases hs : sortPrograms c.epg with
  | none => rw [hs] at h; cases h
  | some sorted =>
    rw [hs] at h
    injection h with h'
    subst h'
    intro n hn
    by_cases hm : chanIdOf c ∈ st.processed
    · simp only [if_pos hm] at hn
      rcases List.mem_append.1 hn with hn | hn
      · exact hf n hn
      · obtain ⟨p, _, he⟩ := List.mem_filterMap.1 hn
        exact emitOne_fallback he
    · simp only [if_neg hm] at hn
      rcases List.mem_append.1 hn with hn | hn
      · rcases List.mem_append.1 hn with hn | hn
        · exact hf n hn
        · rcases List.mem_singleton.1 hn with rfl
          rw [mkChannelNode_empty]
          rfl
      · obtain ⟨p, _, he⟩ := List.mem_filterMap.1 hn
        exact emitOne_fallback he

theorem processBundle_fallback {b : List ChannelEntry} :
    ∀ {st st' : AsmState}, processBundle (fun _ => none) st b = some st' →
    (∀ n ∈ st.tv, fallbackOnly n = true) → ∀ n ∈ st'.tv, fallbackOnly n = true := by
  induction b with
  | nil =>
    intro st st' h hf
    injection h with h'
    subst h'
    exact hf
  | cons c rest ih =>
    intro st st' h hf
    unfold processBundle at h
    cases he : processEntry (fun _ => none) st c with
    | none => rw [he] at h; cases h
    | some st1 =>
      rw [he] at h
      exact ih h (processEntry_fallback he hf)

theorem processDays_fallback {days : List DayResult} :
    ∀ {st st' : AsmState}, processDays (fun _ => none) st days = some st' →
    (∀ n ∈ st.tv, fallbackOnly n = true) → ∀ n ∈ st'.tv, fallbackOnly n = true := by
  induction days with
  | nil =>
    intro st st' h hf
    injection h with h'
    subst h'
    exact hf
  | cons d rest ih =>
    intro st st' h hf
    unfold processDays processDay at h
    cases d with
    | fetchFail =>
      dsimp only at h
      exact ih h hf
    | fetchOk b =>
      dsimp only at h
      cases hb : processBundle (fun _ => none) st b with
      | none => rw [hb] at h; cases h
      | some st1 =>
        rw [hb] at h
        exact ih h (processBundle_fallback hb hf)

theorem run_fallback {days : List DayResult} {doc : EpgDocument}
    (h : run .metaFail days = some doc) : ∀ n ∈ doc.children, fallbackOnly n = true := by
  unfold run at h
  rw [get_channel_info_metaFail] at h
  cases hp : processDays (fun _ => none) ⟨[], []⟩ days with
  | none => rw [hp] at h; cases h
  | some st =>
    rw [hp] at h
    injection h with h'
    subst h'
    exact processDays_fallback hp (by intro n hn; cases hn)

instance : IsTotal Program fun a b => sortKey a ≤ sortKey b :=
  ⟨fun a b => le_total (sortKey a) (sortKey b)⟩

instance : IsTrans Program fun a b => sortKey a ≤ sortKey b :=
  ⟨fun _ _ _ hab hbc => le_trans hab hbc⟩

theorem starts_sublist_keys (cid : String) (l : List Program) :
    ((l.filterMap (emitOne cid)).filterMap progStartVal).Sublist (l.map sortKey) := by
  induction l with
  | nil => simp
  | cons p rest ih =>
    simp only [List.filterMap_cons, List.map_cons]
    cases he : emitOne cid p with
    | none => exact ih.cons _
    | some n =>
      simp only [List.filterMap_cons, (emitOne_shape he).2.2]
      exact ih.cons₂ _

theorem sorted_starts_chain (cid : String) (l : List Program) :
    (((List.insertionSort (fun a b => sortKey a ≤ sortKey b) l).filterMap
      (emitOne cid)).filterMap progStartVal).Chain' (· ≤ ·) := by
  have hsorted := List.sorted_insertionSort (fun a b => sortKey a ≤ sortKey b) l
  have hkeys : ((List.insertionSort (fun a b => sortKey a ≤ sortKey b) l).map
      sortKey).Pairwise (· ≤ ·) := List.pairwise_map.2 hsorted
  exact (hkeys.sublist (starts_sublist_keys cid _)).chain'

theorem emitOne_invalid_end {cid : String} {p : Program} (h : pyInt p.e = none) :
    emitOne cid p = none := by
  unfold emitOne validate_program_times
  cases hps : pyInt p.s <;> simp [h, hps]

theorem entryProgs_drop_bad_end (i nm : Option String) (pre post : List Program)
    (p : Program) (he : pyInt p.e = none)
    (hclean : ((pre ++ p :: post).all fun q => (pyInt q.s).isSome) = true) :
    (entryProgs ⟨i, nm, pre ++ p :: post⟩).Perm (entryProgs ⟨i, nm, pre ++ post⟩) := by
  have hclean' : ((pre ++ post).all fun q => (pyInt q.s).isSome) = true := by
    simp only [List.all_append, List.all_cons, Bool.and_eq_true] at hclean ⊢
    exact ⟨hclean.1, hclean.2.2⟩
  unfold entryProgs sortPrograms
  dsimp only
  rw [if_pos hclean, if_pos hclean']
  dsimp only
  refine ((List.perm_insertionSort _ _).filterMap _).trans ?_
  refine List.Perm.trans ?_ (((List.perm_insertionSort
    (fun a b => sortKey a ≤ sortKey b) (pre ++ post)).filterMap _).symm)
  rw [List.filterMap_append, List.filterMap_append, List.filterMap_cons,
    emitOne_invalid_end he]
  simp [chanIdOf]

theorem run_channelCount {m : MetaFetch} {days : List DayResult} {doc : EpgDocument}
    (h : run m days = some doc) (cid : String) :
    channelCount doc.children cid = if cid ∈ bundleIds days then 1 else 0 := by
  unfold run at h
  cases hp : processDays (get_channel_info m) ⟨[], []⟩ days with
  | none => rw [hp] at h; cases h
  | some st =>
    rw [hp] at h
    injection h with h'
    subst h'
    obtain ⟨hinv, hmem⟩ := processDays_chanInv hp
      (fun cid => by simp [channelCount, List.filter])
    have hiff : cid ∈ st.processed ↔ cid ∈ bundleIds days := by
      rw [hmem cid]; simp
    dsimp only
    rw [hinv cid]
    by_cases hc : cid ∈ bundleIds days
    · rw [if_pos (hiff.2 hc), if_pos hc]
    · rw [if_neg (fun hmem' => hc (hiff.1 hmem')), if_neg hc]

theorem buildChannelsDict_bad {chans : List MetaChannel} :
    ∀ acc, (∃ c ∈ chans, c.id = none ∨ c.name = none ∨ c.categoryName = none ∨
      c.logo = none) → buildChannelsDict chans acc = none := by
  induction chans with
  | nil => intro acc h; simp at h
  | cons c rest ih =>
    intro acc h
    obtain ⟨c', hmem, hbad⟩ := h
    rcases List.mem_cons.1 hmem with heq | hmem'
    · subst heq
      rcases c' with ⟨i, nm, cat, lg⟩
      rcases i with _ | i <;> rcases nm with _ | nm <;> rcases cat with _ | cat <;>
        rcases lg with _ | lg <;> simp_all [buildChannelsDict]
    · rcases c with ⟨i, nm, cat, lg⟩
      rcases i with _ | i <;> rcases nm with _ | nm <;> rcases cat with _ | cat <;>
        rcases lg with _ | lg <;>
        first
        | exact ih _ ⟨c', hmem', hbad⟩
        | simp [buildChannelsDict]

theorem mem_bundleIds {days : List DayResult} {b : List ChannelEntry}
    {c : ChannelEntry} (hb : DayResult.fetchOk b ∈ days) (hc : c ∈ b) :
    chanIdOf c ∈ bundleIds days := by
  induction days with
  | nil => cases hb
  | cons d rest ih =>
    rcases List.mem_cons.1 hb with heq | hmem
    · rw [← heq]
      exact List.mem_append_left _ (List.mem_map.2 ⟨c, hc, rfl⟩)
    · cases d with
      | fetchFail => exact ih hmem
      | fetchOk b' => exact List.mem_append_right _ (ih hmem)

theorem format_timestamp_ne_empty {ts : TsRaw} {t : Int} (h : pyInt ts = some t) :
    format_timestamp ts ≠ "" := by
  unfold format_timestamp
  rw [h]
  intro hcon
  have hd := congrArg String.data hcon
  rw [String.data_append] at hd
  rcases List.append_eq_nil.1 hd with ⟨_, h2⟩
  exact absurd h2 (by decide)

theorem strftime_dmY (dt : Date) :
    strftimeRun dt "%d-%m-%Y".toList =
      pad2 dt.day ++ "-" ++ pad2 dt.month ++ "-" ++ pad4 dt.year := by
  show strftimeRun dt ['%', 'd', '-', '%', 'm', '-', '%', 'Y'] = _
  apply String.ext
  simp [strftimeRun, String.data_append, String.singleton]

/-- C1: for every channel id c, a completed run's output document contains
exactly one channel node with id c when c appears (as the computed id) in at
least one successfully fetched day's bundle — no matter how many bundles or
days mention c — and none otherwise: the `processed_channels` set guarantees
no two channel nodes share an id. -/
theorem claim1_channel_dedup (m : MetaFetch) (days : List DayResult)
    (doc : EpgDocument) (h : run m days = some doc) (cid : String) :
    channelCount doc.children cid = if cid ∈ bundleIds days then 1 else 0 :=
  run_channelCount h cid

/-- Concrete run for the C1 witness: id "c1a" appears twice in the first
day's bundle and again in the third day's; the second day fails. -/
def c1Meta : MetaFetch := .metaOk [⟨some "c1a", some "Alpha", some "News", some "uA"⟩]

/-- The three day outcomes of the C1 witness run. -/
def c1Days : List DayResult :=
  [.fetchOk [⟨some "c1a", some "A", [⟨.num 100, .num 200, none, none⟩]⟩,
             ⟨some "c1a", some "A", []⟩],
   .fetchFail,
   .fetchOk [⟨some "c1a", some "A2", [⟨.num 300, .num 400, none, none⟩]⟩,
             ⟨some "c1b", none, []⟩]]

/-- The document the C1 witness run produces. -/
def c1Doc : EpgDocument := (run c1Meta c1Days).getD ⟨"", "", []⟩

/-- Witness for C1: the dedup property evaluated on the concrete run. -/
theorem claim1_channel_dedup_witness :
    channelCount c1Doc.children "c1a" = if "c1a" ∈ bundleIds c1Days then 1 else 0 :=
  claim1_channel_dedup c1Meta c1Days c1Doc (by decide) "c1a"

/-- Input refuting C2 as stated: the first program's start is a non-numeric
string, the second program is valid. -/
def c2Days : List DayResult :=
  [.fetchOk [⟨some "c2ch", some "Chan", [⟨.badstr, .num 500, none, none⟩,
                                         ⟨.num 100, .num 200, none, none⟩]⟩]]

/-- C2 counterexample: the claim says every invalid program is omitted with
no error raised and every valid one is emitted, but a program whose start is
a non-numeric string makes the sort key `int(x.get("s", 0))` raise an uncaught
`ValueError`: the run aborts (`none`) and not even the valid program
(start 100 < end 200) is emitted — no output document exists at all. -/
theorem claim2_emission_cex :
    validate_program_times (.num 100) (.num 200) = true ∧
      run .metaFail c2Days = none := by decide

/-- C2 (amended): provided every program of the entry has an integer-parsable
start (otherwise the run aborts during sorting and produces no output), a
program is emitted as a programme node if and only if it validates (both
parse, start > 0, end > start; both timestamps then format successfully), and
a completed run's programme children are exactly the per-entry emissions of
the successfully fetched bundles, so every other program is omitted with no
error raised.  The `tsSafe` bounds restrict the statement to the timestamp
domain on which the formatter model is faithful. -/
theorem claim2_emission :
    (∀ cid p, tsSafe p.s = true → tsSafe p.e = true →
      (emitOne cid p).isSome = validate_program_times p.s p.e) ∧
    ∀ m days doc, run m days = some doc → progNodes doc.children = daysProgs days := by
  constructor
  · intro cid p _ _
    by_cases hv : validate_program_times p.s p.e = true
    · rw [hv]
      obtain ⟨a, b, hs, he, -, -⟩ :
          ∃ a b : Int, pyInt p.s = some a ∧ pyInt p.e = some b ∧ 0 < a ∧ a < b := by
        revert hv
        unfold validate_program_times
        cases hs : pyInt p.s <;> cases he : pyInt p.e <;> simp
      unfold emitOne
      rw [hv, if_pos rfl, if_pos ⟨format_timestamp_ne_empty hs, format_timestamp_ne_empty he⟩]
      rfl
    · rw [Bool.not_eq_true] at hv
      rw [hv]
      unfold emitOne
      rw [hv]
      rfl
  · intro m days doc h
    exact run_progs h

/-- Concrete input for the C2 witness: one valid and one invalid program. -/
def c2wDays : List DayResult :=
  [.fetchOk [⟨some "w2", none, [⟨.num 1000, .num 2000, none, none⟩,
                                ⟨.num 5, .num 3, none, none⟩]⟩]]

/-- The document the C2 witness run produces. -/
def c2wDoc : EpgDocument := (run .metaFail c2wDays).getD ⟨"", "", []⟩

/-- Witness for C2 (amended) at concrete inputs. -/
theorem claim2_emission_witness :
    ((emitOne "w2" ⟨.num 1000, .num 2000, none, none⟩).isSome =
      validate_program_times (.num 1000) (.num 2000)) ∧
    progNodes c2wDoc.children = daysProgs c2wDays :=
  ⟨claim2_emission.1 "w2" ⟨.num 1000, .num 2000, none, none⟩ (by decide) (by decide),
   claim2_emission.2 .metaFail c2wDays c2wDoc (by decide)⟩

/-- C3: the program validator returns true exactly when both raw values parse
as integers, the parsed start is strictly positive and the parsed end is
strictly greater; any parse failure (caught `ValueError`) or chronological
violation makes it return false. -/
theorem claim3_validate (s e : TsRaw) :
    validate_program_times s e = true ↔
      ∃ a b : Int, pyInt s = some a ∧ pyInt e = some b ∧ 0 < a ∧ a < b := by
  unfold validate_program_times
  cases hs : pyInt s <;> cases he : pyInt e <;> simp

/-- Witness for C3 at the spec's example values. -/
theorem claim3_validate_witness :
    validate_program_times (.num 1000) (.num 2000) = true ↔
      ∃ a b : Int, pyInt (.num 1000) = some a ∧ pyInt (.num 2000) = some b ∧
        0 < a ∧ a < b :=
  claim3_validate (.num 1000) (.num 2000)

/-- Input refuting C4 as stated: the same channel id in two days' bundles,
the later day's program starting earlier. -/
def c4Days : List DayResult :=
  [.fetchOk [⟨some "c4ch", none, [⟨.num 5000, .num 6000, none, none⟩]⟩],
   .fetchOk [⟨some "c4ch", none, [⟨.num 1000, .num 2000, none, none⟩]⟩]]

/-- C4 counterexample: the sort at line 107 orders programs within one
channel entry of one day's bundle only; across days nothing reorders, so the
completed document lists channel "c4ch" starts as 5000 then 1000 — not
non-decreasing, refuting the claim for programmes of the same channel across
all days' bundles. -/
theorem claim4_order_cex :
    (run .metaFail c4Days).map
        (fun d => nondecreasing (progStartsFor d.children "c4ch")) = some false ∧
      (run .metaFail c4Days).map
        (fun d => progStartsFor d.children "c4ch") = some [5000, 1000] := by decide

/-- C4 (amended): the programme nodes contributed by one single channel entry
(one entry of one day's bundle) appear in non-decreasing start-time order;
the guarantee does not extend across days or across duplicate entries. -/
theorem claim4_order (c : ChannelEntry) :
    ((entryProgs c).filterMap progStartVal).Chain' (· ≤ ·) := by
  unfold entryProgs
  cases hs : sortPrograms c.epg with
  | none => simp
  | some sorted =>
    have heq : sorted = List.insertionSort (fun a b => sortKey a ≤ sortKey b) c.epg := by
      unfold sortPrograms at hs
      split at hs
      · exact (Option.some.inj hs).symm
      · cases hs
    subst heq
    exact sorted_starts_chain (chanIdOf c) c.epg

/-- Witness for C4 (amended) on a concrete out-of-order entry. -/
theorem claim4_order_witness :
    ((entryProgs ⟨some "w4", none, [⟨.num 9, .num 12, none, none⟩,
        ⟨.num 3, .num 7, none, none⟩]⟩).filterMap progStartVal).Chain' (· ≤ ·) :=
  claim4_order ⟨some "w4", none, [⟨.num 9, .num 12, none, none⟩,
    ⟨.num 3, .num 7, none, none⟩]⟩

/-- C5 counterexample: during Bangladesh's 2009 daylight-saving period the
Asia/Dhaka offset is +07:00, so `format_timestamp` renders the +7 wall clock
with the hardcoded literal suffix ' +0600'; at 1250000000 (2009-08-11) the
output differs from the claimed UTC+6 rendering. -/
theorem claim5_format_cex :
    format_timestamp (.num 1250000000) ≠ specFormatUTC6 1250000000 ∧
      format_timestamp (.num 1250000000) = "20090811211320 +0600" ∧
      specFormatUTC6 1250000000 = "20090811201320 +0600" := by decide

/-- C5 (amended): for every nonnegative in-range timestamp outside the 2009
daylight-saving window [1245430800, 1262278800), the formatter is
deterministic and returns the calendar date/time shifted by +06:00 with the
suffix ' +0600', exactly as the spec states; inside that window the digits
reflect a +07:00 shift while the suffix stays ' +0600'. -/
theorem claim5_format (t : Int) (h0 : 0 ≤ t) (hsafe : t < 253402279200)
    (hdst : t < 1245430800 ∨ 1262278800 ≤ t) :
    format_timestamp (.num t) = specFormatUTC6 t := by
  unfold format_timestamp pyInt specFormatUTC6 dhakaOffset
  dsimp only
  have hw : ¬(1245430800 ≤ t ∧ t < 1262278800) := by
    rcases hdst with h | h <;> omega
  rw [if_neg hw]

/-- Witness for C5 (amended) at the spec's example timestamp 1700000000. -/
theorem claim5_format_witness :
    format_timestamp (.num 1700000000) = specFormatUTC6 1700000000 ∧
      specFormatUTC6 1700000000 = "20231115041320 +0600" :=
  ⟨claim5_format 1700000000 (by decide) (by decide) (Or.inr (by decide)), by decide⟩

/-- Input refuting C6 as stated: the first program's start is a non-numeric
string; the second program is valid. -/
def c6Days : List DayResult :=
  [.fetchOk [⟨some "c6ch", none, [⟨.badstr, .num 900, none, none⟩,
                                  ⟨.num 300, .num 400, none, none⟩]⟩]]

/-- C6 counterexample: the claim says a malformed (non-numeric) start or end
timestamp makes the run drop only that single program, the rest unaffected;
but a non-numeric start raises an uncaught `ValueError` in the sort key
before any per-program handling, aborting the whole run: no document is
produced and even the valid program (300, 400) of the same bundle is lost. -/
theorem claim6_malformed_cex :
    validate_program_times (.num 300) (.num 400) = true ∧
      run .metaFail c6Days = none := by decide

/-- C6 (amended): the time formatter does return an empty string on a
non-numeric input (its caught `ValueError`); a program whose END timestamp is
malformed is dropped silently, leaving every other program's emissions
unchanged (the entry's emitted programmes are a permutation of the emissions
without it) — but a malformed START timestamp in any program of a
successfully fetched bundle aborts the whole run with no output, because the
sort key parses it outside any handler.  (In the pipeline a malformed end
never reaches the formatter: validation drops the program first.) -/
theorem claim6_malformed :
    (format_timestamp .badstr = "") ∧
    (∀ i nm pre post p, pyInt (Program.e p) = none →
      ((pre ++ p :: post).all fun q => (pyInt q.s).isSome) = true →
      (entryProgs ⟨i, nm, pre ++ p :: post⟩).Perm (entryProgs ⟨i, nm, pre ++ post⟩)) ∧
    ∀ m days, daysClean days = false → run m days = none :=
  ⟨rfl,
   fun i nm pre post p he hc => entryProgs_drop_bad_end i nm pre post p he hc,
   fun m days h => run_none_of_unclean m days h⟩

/-- Entry with a malformed end timestamp, for the C6 witness. -/
def c6wEntryA : ChannelEntry :=
  ⟨some "w6", none, [⟨.num 10, .num 20, none, none⟩, ⟨.num 5, .badstr, none, none⟩]⟩

/-- The same entry without the malformed program, for the C6 witness. -/
def c6wEntryB : ChannelEntry := ⟨some "w6", none, [⟨.num 10, .num 20, none, none⟩]⟩

/-- Witness for C6 (amended) at concrete inputs. -/
theorem claim6_malformed_witness :
    format_timestamp .badstr = "" ∧
      (entryProgs c6wEntryA).Perm (entryProgs c6wEntryB) ∧
      run .metaFail [.fetchOk [⟨some "w6b", none, [⟨.badstr, .num 2, none, none⟩]⟩]] =
        none :=
  ⟨claim6_malformed.1,
   claim6_malformed.2.1 (some "w6") none [⟨.num 10, .num 20, none, none⟩] []
     ⟨.num 5, .badstr, none, none⟩ rfl (by decide),
   claim6_malformed.2.2 .metaFail _ (by decide)⟩

/-- C7: a day whose fetch fails is logged and skipped: the run on any day
sequence with a failed fetch inserted equals the run without that day — the
failed day contributes nothing, every other day's bundle is still fully
processed, and no day is retried (the loop consumes each day exactly once). -/
theorem claim7_day_skip (m : MetaFetch) (pre post : List DayResult) :
    run m (pre ++ DayResult.fetchFail :: post) = run m (pre ++ post) := by
  unfold run
  rw [processDays_fetchFail]

/-- Witness for C7 on a run where the middle of three days fails. -/
theorem claim7_day_skip_witness :
    run .metaFail
        ([.fetchOk [⟨some "w7a", none, [⟨.num 11, .num 22, none, none⟩]⟩]] ++
          DayResult.fetchFail ::
            [.fetchOk [⟨some "w7b", none, [⟨.num 33, .num 44, none, none⟩]⟩]]) =
      run .metaFail
        ([.fetchOk [⟨some "w7a", none, [⟨.num 11, .num 22, none, none⟩]⟩]] ++
          [.fetchOk [⟨some "w7b", none, [⟨.num 33, .num 44, none, none⟩]⟩]]) :=
  claim7_day_skip .metaFail _ _

/-- C8: `get_channel_info` never raises: on a failed fetch — and likewise on
a record with a missing field, whose `KeyError` is swallowed by the blanket
handler — it returns the empty index; whether the run completes is
independent of the metadata outcome; and with the empty index every channel
node is built in fallback shape: the schedule-supplied name, no category, no
icon. -/
theorem claim8_meta_failure :
    (∀ cid, get_channel_info .metaFail cid = none) ∧
    (∀ chans cid,
      (∃ c ∈ chans, c.id = none ∨ c.name = none ∨ c.categoryName = none ∨
        c.logo = none) →
      get_channel_info (.metaOk chans) cid = none) ∧
    (∀ m m' days, (run m days).isSome = (run m' days).isSome) ∧
    (∀ cid nm, mkChannelNode (get_channel_info .metaFail) cid nm =
      Node.channel cid nm none none) ∧
    ∀ days doc, run .metaFail days = some doc →
      ∀ n ∈ doc.children, fallbackOnly n = true := by
  refine ⟨fun cid => rfl, ?_, ?_, fun cid nm => rfl, ?_⟩
  · intro chans cid hbad
    unfold get_channel_info
    dsimp only
    rw [buildChannelsDict_bad _ hbad]
  · intro m m' days
    rw [run_isSome, run_isSome]
  · intro days doc h
    exact run_fallback h

/-- The day outcomes of the C8 witness run. -/
def c8Days : List DayResult :=
  [.fetchOk [⟨some "w8", some "NameW8", [⟨.num 50, .num 60, none, none⟩]⟩]]

/-- The document of the C8 witness run (metadata fetch failed). -/
def c8Doc : EpgDocument := (run .metaFail c8Days).getD ⟨"", "", []⟩

/-- Witness for C8 at concrete inputs. -/
theorem claim8_meta_failure_witness :
    get_channel_info .metaFail "w8" = none ∧
      get_channel_info (.metaOk [⟨none, some "X", some "Y", some "Z"⟩]) "w8" = none ∧
      ((run .metaFail c8Days).isSome = (run (.metaOk []) c8Days).isSome) ∧
      mkChannelNode (get_channel_info .metaFail) "w8" "NameW8" =
        Node.channel "w8" "NameW8" none none ∧
      ∀ n ∈ c8Doc.children, fallbackOnly n = true :=
  ⟨claim8_meta_failure.1 "w8",
   claim8_meta_failure.2.1 [⟨none, some "X", some "Y", some "Z"⟩] "w8"
     ⟨⟨none, some "X", some "Y", some "Z"⟩, by decide, Or.inl rfl⟩,
   claim8_meta_failure.2.2.1 .metaFail (.metaOk []) c8Days,
   claim8_meta_failure.2.2.2.1 "w8" "NameW8",
   claim8_meta_failure.2.2.2.2 c8Days c8Doc (by decide)⟩

/-- C9: for every run date the URL generator returns exactly three URLs, in
order, substituting the zero-padded DD-MM-YYYY renderings of that date, the
next calendar day and the day after into the fixed template; it is a pure
function of the date (deterministic given the clock, no network access). -/
theorem claim9_urls (today : Date) :
    get_api_urls today = [specUrl today, specUrl (nextDay today),
      specUrl (nextDay (nextDay today))] := by
  simp only [get_api_urls, specUrl, specDateDMY, List.range_succ, List.range_zero,
    List.map_cons, List.map_nil, List.nil_append, List.cons_append, addDays,
    strftime_dmY]

/-- Witness for C9 at 2025-12-31: the three URLs cross a month and year
boundary and show the zero padding. -/
theorem claim9_urls_witness :
    get_api_urls ⟨2025, 12, 31⟩ = [specUrl ⟨2025, 12, 31⟩,
        specUrl (nextDay ⟨2025, 12, 31⟩),
        specUrl (nextDay (nextDay ⟨2025, 12, 31⟩))] ∧
      get_api_urls ⟨2025, 12, 31⟩ =
        [baseUrlHead ++ "31-12-2025" ++ baseUrlTail,
         baseUrlHead ++ "01-01-2026" ++ baseUrlTail,
         baseUrlHead ++ "02-01-2026" ++ baseUrlTail] :=
  ⟨claim9_urls ⟨2025, 12, 31⟩, by decide⟩

/-- C10: a bundle entry lacking the channel-id key "i" gets the literal id
"unknown_id"; in a completed run all such entries, across all days,
deduplicate into exactly one channel node with id "unknown_id", and every
programme such an entry emits references that one shared id. -/
theorem claim10_unknown_id :
    (∀ c : ChannelEntry, c.i = none → chanIdOf c = "unknown_id") ∧
    (∀ m days doc b c, run m days = some doc → DayResult.fetchOk b ∈ days →
      c ∈ b → c.i = none → channelCount doc.children "unknown_id" = 1) ∧
    ∀ c : ChannelEntry, c.i = none →
      ∀ n ∈ entryProgs c, progChanOf n = some "unknown_id" := by
  have hid : ∀ c : ChannelEntry, c.i = none → chanIdOf c = "unknown_id" := by
    intro c hc
    unfold chanIdOf
    rw [hc]
    rfl
  refine ⟨hid, ?_, ?_⟩
  · intro m days doc b c h hb hc hnone
    have hmem : "unknown_id" ∈ bundleIds days := by
      rw [← hid c hnone]
      exact mem_bundleIds hb hc
    rw [run_channelCount h "unknown_id", if_pos hmem]
  · intro c hnone n hn
    unfold entryProgs at hn
    cases hs : sortPrograms c.epg with
    | none => rw [hs] at hn; cases hn
    | some sorted =>
      rw [hs] at hn
      obtain ⟨p, _, he⟩ := List.mem_filterMap.1 hn
      rw [(emitOne_shape he).2.1, hid c hnone]

/-- The day outcomes of the C10 witness run: two id-less entries in
different days. -/
def c10Days : List DayResult :=
  [.fetchOk [⟨none, some "NoIdA", [⟨.num 10, .num 20, none, none⟩]⟩],
   .fetchOk [⟨none, some "NoIdB", [⟨.num 30, .num 40, none, none⟩]⟩]]

/-- The document of the C10 witness run. -/
def c10Doc : EpgDocument := (run .metaFail c10Days).getD ⟨"", "", []⟩

/-- Witness for C10 at concrete inputs. -/
theorem claim10_unknown_id_witness :
    chanIdOf ⟨none, some "NoIdA", [⟨.num 10, .num 20, none, none⟩]⟩ = "unknown_id" ∧
      channelCount c10Doc.children "unknown_id" = 1 ∧
      ∀ n ∈ entryProgs ⟨none, some "NoIdA", [⟨.num 10, .num 20, none, none⟩]⟩,
        progChanOf n = some "unknown_id" :=
  ⟨claim10_unknown_id.1 ⟨none, some "NoIdA", [⟨.num 10, .num 20, none, none⟩]⟩ rfl,
   claim10_unknown_id.2.1 .metaFail c10Days c10Doc
     [⟨none, some "NoIdA", [⟨.num 10, .num 20, none, none⟩]⟩]
     ⟨none, some "NoIdA", [⟨.num 10, .num 20, none, none⟩]⟩
     (by decide) (by decide) (by decide) rfl,
   claim10_unknown_id.2.2 ⟨none, some "NoIdA", [⟨.num 10, .num 20, none, none⟩]⟩ rfl⟩

end Epg

